import Mathlib

/-!
Verification of the parametric-geometry terrain repository (`src/main.js`)
against its natural-language specification.

The JavaScript is shallowly embedded: numbers are modelled as elements of an
ordered field (instantiated at `ℚ` for executable statements and at `ℝ` where
square roots from vector normalization are needed), the external simplex-noise
generator `noise2D` is an arbitrary function parameter, and the mutable
`params` / `snowboardParams` objects and the mutable `timeOffset` variable are
passed explicitly.
-/

namespace Terrain

/-- The numeric fields of the global `params` object of `main.js` that the
core computations read (GUI/material fields are omitted). -/
structure Params (α : Type) where
  terrainWidth : α
  terrainLength : α
  resolution : ℕ
  baseHeight : α
  mountainScale : α
  mountainHeight : α
  hillScale : α
  hillHeight : α
  roughScale : α
  roughHeight : α
  snowboarderHeight : α
  speed : α
  isMoving : Bool
deriving DecidableEq

/-- The `snowboardParams` object of `main.js`. -/
structure SnowboardParams (α : Type) where
  length : α
  width : α
  thickness : α
  bevelSize : α
  distanceFromCamera : α
  tilt : α
deriving DecidableEq

/-- The function `getTerrainHeight(x, z)` from `main.js` lines 233–242: adds `timeOffset`
to `z`, samples the noise generator at three band scales, multiplies each
sample by its band amplitude, and adds the three contributions to
`baseHeight`.  The noise generator is an explicit function argument. -/
def getTerrainHeight {α : Type} [Field α] (noise : α → α → α) (p : Params α)
    (timeOffset x z : α) : α :=
  let offsetZ := z + timeOffset
  let mountains := noise (x * p.mountainScale) (offsetZ * p.mountainScale) * p.mountainHeight
  let hills := noise (x * p.hillScale) (offsetZ * p.hillScale) * p.hillHeight
  let roughness := noise (x * p.roughScale) (offsetZ * p.roughScale) * p.roughHeight
  p.baseHeight + mountains + hills + roughness

/-- The mutable state of `main.js` that `getTerrainHeight` reads: the noise
generator closure `noise2D`, the `params` object, and the scalar `timeOffset`. -/
structure World (α : Type) where
  noise : α → α → α
  params : Params α
  timeOffset : α

/-- The height query as a function of the whole mutable world. -/
def heightAt {α : Type} [Field α] (w : World α) (x z : α) : α :=
  getTerrainHeight w.noise w.params w.timeOffset x z

/-- One step of the motion update in `animate` (`main.js` lines 382–385):
when `isMoving`, `timeOffset += speed * deltaTime`; otherwise `timeOffset`
is untouched. -/
def tick {α : Type} [Field α] (isMoving : Bool) (speed elapsed offset : α) : α :=
  if isMoving then offset + speed * elapsed else offset

/-- Iterated motion steps: `n` consecutive motion steps with the same settings and elapsed time. -/
def ticks {α : Type} [Field α] (isMoving : Bool) (speed elapsed : α) :
    ℕ → α → α
  | 0, offset => offset
  | n + 1, offset => ticks isMoving speed elapsed n (tick isMoving speed elapsed offset)

/-! ### Rigid-body placement (`updateSnowboarderView`, lines 131–215)

Exact-arithmetic model of THREE.Vector3 as used there.  The only rotation the
code applies is `applyAxisAngle((0,1,0), Math.PI)`, which in exact arithmetic
maps `(x, y, z)` to `(-x, y, -z)`. -/

structure Vec3 (α : Type) where
  x : α
  y : α
  z : α
deriving DecidableEq

namespace Vec3

def add {α : Type} [Field α] (a b : Vec3 α) : Vec3 α := ⟨a.x + b.x, a.y + b.y, a.z + b.z⟩

def smul {α : Type} [Field α] (c : α) (a : Vec3 α) : Vec3 α := ⟨c * a.x, c * a.y, c * a.z⟩

/-- The call `v.applyAxisAngle(new THREE.Vector3(0,1,0), Math.PI)` in exact arithmetic:
rotation by π about the y-axis. -/
def rotYPi {α : Type} [Field α] (a : Vec3 α) : Vec3 α := ⟨-a.x, a.y, -a.z⟩

/-- The cross product `a.cross(b)` of THREE.Vector3. -/
def cross {α : Type} [Field α] (a b : Vec3 α) : Vec3 α :=
  ⟨a.y * b.z - a.z * b.y, a.z * b.x - a.x * b.z, a.x * b.y - a.y * b.x⟩

end Vec3

/-- Line 151: `bottomOffset = -(thickness + bevelSize) / 2`. -/
def bottomOffset {α : Type} [Field α] (sp : SnowboardParams α) : α :=
  -(sp.thickness + sp.bevelSize) / 2

/-- Lines 139–141: the board center is the snowboarder position plus
`(0, 0, -distanceFromCamera)` rotated by π about the y-axis. -/
def boardCenter {α : Type} [Field α] (sp : SnowboardParams α)
    (snowboarderPosition : Vec3 α) : Vec3 α :=
  snowboarderPosition.add (Vec3.rotYPi ⟨0, 0, -sp.distanceFromCamera⟩)

/-- Lines 144–145: `forward = (0,0,1)` rotated by π about y. -/
def forwardDir {α : Type} [Field α] : Vec3 α := Vec3.rotYPi ⟨0, 0, 1⟩

/-- Line 146: `right = (1,0,0)`. -/
def rightDir {α : Type} [Field α] : Vec3 α := ⟨1, 0, 0⟩

/-- Lines 148–180: the five offsets from the board center at which the
terrain is sampled — the four bottom corners, each pushed outward by
`edgeOffset = bevelSize` beyond the half-extents and down by `bottomOffset`,
and the bottom center point. -/
def sampleOffsets {α : Type} [Field α] (sp : SnowboardParams α) : List (Vec3 α) :=
  let halfLength := sp.length / 2
  let halfWidth := sp.width / 2
  let down : Vec3 α := ⟨0, bottomOffset sp, 0⟩
  let edgeOffset := sp.bevelSize
  [ ((Vec3.smul (halfLength + edgeOffset) forwardDir).add
      (Vec3.smul (halfWidth + edgeOffset) rightDir)).add down,
    ((Vec3.smul (halfLength + edgeOffset) forwardDir).add
      (Vec3.smul (-(halfWidth + edgeOffset)) rightDir)).add down,
    ((Vec3.smul (-(halfLength + edgeOffset)) forwardDir).add
      (Vec3.smul (halfWidth + edgeOffset) rightDir)).add down,
    ((Vec3.smul (-(halfLength + edgeOffset)) forwardDir).add
      (Vec3.smul (-(halfWidth + edgeOffset)) rightDir)).add down,
    down ]

/-- Lines 183–186: heights sampled at the five points; only the x and z
coordinates of each sample position enter the height function. -/
def sampleHeights {α : Type} [Field α] (hf : α → α → α) (sp : SnowboardParams α)
    (bc : Vec3 α) : List α :=
  (sampleOffsets sp).map (fun offset =>
    let samplePos := bc.add offset
    hf samplePos.x samplePos.z)

/-- The spread call `Math.max(...)` over a list of already-computed numbers; the code always
applies it to the five-element `sampleHeights`, so the empty case (JS would
give `-Infinity`) is unreachable. -/
def listMax {α : Type} [LinearOrder α] : List α → Option α
  | [] => none
  | a :: rest =>
    match listMax rest with
    | none => some a
    | some m => some (max a m)

/-- Line 189: `maxHeight = Math.max(...sampleHeights) - bottomOffset`; this is
the y-coordinate assigned to the board center (line 192). -/
def restingHeight {α : Type} [Field α] [LinearOrder α] (hf : α → α → α)
    (sp : SnowboardParams α) (bc : Vec3 α) : α :=
  (listMax (sampleHeights hf sp bc)).getD 0 - bottomOffset sp

/-- Lines 188–193: the final board position — x and z of the board center,
with its y overwritten by `maxHeight`. -/
def boardPosition {α : Type} [Field α] [LinearOrder α] (hf : α → α → α)
    (sp : SnowboardParams α) (snowboarderPosition : Vec3 α) : Vec3 α :=
  let bc := boardCenter sp snowboarderPosition
  ⟨bc.x, restingHeight hf sp bc, bc.z⟩

/-- Lines 133 / 288: the viewpoint anchor's height,
`getTerrainHeight(x, z) + params.snowboarderHeight`. -/
def anchorHeight {α : Type} [Field α] (w : World α) (ax az : α) : α :=
  heightAt w ax az + w.params.snowboarderHeight

/-! ### Surface sampling (`surfaceFunction`, lines 244–249, and the
ParametricGeometry grid) -/

/-- The function `surfaceFunction(u, v, target)` from lines 244–249: maps unit-square
coordinates to the world-space point
`((u-0.5)·terrainWidth, height, (v-0.5)·terrainLength)`. -/
def surfaceFunction {α : Type} [Field α] (w : World α) (u v : α) : Vec3 α :=
  let x := (u - 1 / 2) * w.params.terrainWidth
  let z := (v - 1 / 2) * w.params.terrainLength
  let y := heightAt w x z
  ⟨x, y, z⟩

/-- Modelled from the spec: the vertex grid built by the external
`ParametricGeometry(surfaceFunction, Ru, Rv)` constructor, whose loop is not
part of this repository's sources.  Per the spec, `u` and `v` step over
`Ru+1` and `Rv+1` evenly-spaced values in `[0,1]` (`u = i/Ru`, `v = j/Rv`)
and each pair is mapped through `surfaceFunction`. -/
def buildSurface {α : Type} [Field α] (w : World α) (Ru Rv : ℕ) : List (Vec3 α) :=
  (List.range (Ru + 1)).flatMap (fun i : ℕ =>
    (List.range (Rv + 1)).map (fun j : ℕ =>
      surfaceFunction w ((i : α) / (Ru : α)) ((j : α) / (Rv : α))))

/-- The function `updateGeometry` (lines 279–294) reconstructs the grid with
`params.resolution` for both directions, unconditionally: it contains no
validation, rejection or clamping of the resolution value. -/
def updateGeometryGrid {α : Type} [Field α] (w : World α) : List (Vec3 α) :=
  buildSurface w w.params.resolution w.params.resolution

/-- Modelled from the spec: the rebuild the specification describes, which
rejects resolutions below 1 before any sampling occurs and surfaces the
invalid-configuration condition synchronously (`none`). -/
def specRebuildSurface {α : Type} [Field α] (w : World α) : Option (List (Vec3 α)) :=
  if w.params.resolution < 1 then none
  else some (buildSurface w w.params.resolution w.params.resolution)

/-! ### Orientation derivation (lines 196–203), over `ℝ`

`THREE.Vector3.normalize()` divides by `this.length() || 1`: a vector of
length exactly zero is divided by 1 (left unchanged); every other vector is
divided by its length.  Square roots force this part of the model into `ℝ`. -/

/-- The length `v.length()` of THREE.Vector3. -/
noncomputable def rlen (v : Vec3 ℝ) : ℝ :=
  Real.sqrt (v.x ^ 2 + v.y ^ 2 + v.z ^ 2)

/-- The method `v.normalize()` of THREE.Vector3: `divideScalar(length || 1)`, so a
zero-length vector is returned unchanged and no fallback vector is ever
substituted. -/
noncomputable def threeNormalize (v : Vec3 ℝ) : Vec3 ℝ :=
  if rlen v = 0 then v else ⟨v.x / rlen v, v.y / rlen v, v.z / rlen v⟩

/-- Modelled from the spec: the normalization the specification requires,
which checks for near-zero magnitude (threshold `thr`) and substitutes the
default up vector `(0,1,0)` instead of normalizing a near-zero vector. -/
noncomputable def specSafeNormalize (thr : ℝ) (v : Vec3 ℝ) : Vec3 ℝ :=
  if rlen v ≤ thr then ⟨0, 1, 0⟩ else ⟨v.x / rlen v, v.y / rlen v, v.z / rlen v⟩

/-- Line 196: `epsilon = 0.1`. -/
noncomputable def epsilon : ℝ := 1 / 10

/-- Line 201: `forwardSlope = (0, forwardHeight - centerHeight, epsilon).normalize()`,
where `centerHeight = sampleHeights[4] = hf(bc.x, bc.z)` and
`forwardHeight = hf(bc.x, bc.z + epsilon)`. -/
noncomputable def forwardSlope (hf : ℝ → ℝ → ℝ) (cx cz : ℝ) : Vec3 ℝ :=
  threeNormalize ⟨0, hf cx (cz + epsilon) - hf cx cz, epsilon⟩

/-- Line 202: `rightSlope = (epsilon, rightHeight - centerHeight, 0).normalize()`,
with `rightHeight = hf(bc.x + epsilon, bc.z)`. -/
noncomputable def rightSlope (hf : ℝ → ℝ → ℝ) (cx cz : ℝ) : Vec3 ℝ :=
  threeNormalize ⟨epsilon, hf (cx + epsilon) cz - hf cx cz, 0⟩

/-- Line 203 before the final normalize: `rightSlope.cross(forwardSlope)`. -/
noncomputable def slopeCross (hf : ℝ → ℝ → ℝ) (cx cz : ℝ) : Vec3 ℝ :=
  Vec3.cross (rightSlope hf cx cz) (forwardSlope hf cx cz)

/-- Line 203: `normal = rightSlope.cross(forwardSlope).normalize()`. -/
noncomputable def computedNormal (hf : ℝ → ℝ → ℝ) (cx cz : ℝ) : Vec3 ℝ :=
  threeNormalize (slopeCross hf cx cz)

/-! ### Fixtures for concrete evaluations -/

/-- The default numeric values of the `params` object (lines 18–57), with a
concrete stand-in noise function where one is needed. -/
def paramsW : Params ℚ :=
  { terrainWidth := 20, terrainLength := 20, resolution := 100, baseHeight := 3,
    mountainScale := 3/20, mountainHeight := 39/50, hillScale := 2/5, hillHeight := 1/50,
    roughScale := 4/5, roughHeight := 1/20, snowboarderHeight := 1/2, speed := 1,
    isMoving := true }

/-- A concrete noise function for witnesses. -/
def noiseW : ℚ → ℚ → ℚ := fun a b => a + b

/-- A concrete world built from the default parameters. -/
def worldW : World ℚ := ⟨noiseW, paramsW, 0⟩

/-- The default `snowboardParams` (lines 60–67): length 1.6, width 0.3,
thickness 0.05, bevelSize 0.02, distanceFromCamera 1.5, tilt 0. -/
def spD : SnowboardParams ℚ := ⟨8/5, 3/10, 1/20, 1/50, 3/2, 0⟩

/-- A snowboard configuration whose `bottomOffset` is exactly `-0.05`
(thickness 0.08, bevelSize 0.02). -/
def spW : SnowboardParams ℚ := ⟨8/5, 3/10, 2/25, 1/50, 3/2, 0⟩

/-- A height function realizing corner heights 1.0, 1.2, 0.9, 1.1 and center
height 1.0 around the origin. -/
def hfW : ℚ → ℚ → ℚ := fun x z =>
  if z < 0 then (if 0 < x then 1 else 6/5)
  else if 0 < z then (if 0 < x then 9/10 else 11/10)
  else 1

/-- The everywhere-zero height function (flat terrain). -/
def hfFlat : ℚ → ℚ → ℚ := fun _ _ => 0

/-! ### Claims about the height function -/

/-- C1: with the noise generator, band parameters, base height and scroll
offset fixed, `getTerrainHeight x z` returns `baseHeight` plus the sum over
the three bands of `noise2D(x·scale, (z+scrollOffset)·scale) · amplitude`,
the scroll offset being added to `z` before scaling. -/
theorem C1_height_is_banded_noise_sum {α : Type} [Field α] (noise : α → α → α)
    (p : Params α) (timeOffset x z : α) :
    getTerrainHeight noise p timeOffset x z =
      p.baseHeight +
        (noise (x * p.mountainScale) ((z + timeOffset) * p.mountainScale) * p.mountainHeight +
         noise (x * p.hillScale) ((z + timeOffset) * p.hillScale) * p.hillHeight +
         noise (x * p.roughScale) ((z + timeOffset) * p.roughScale) * p.roughHeight) := by
  simp only [getTerrainHeight]
  ring

/-- C8: with the noise generator, parameters and scroll offset fixed, two
evaluations of the height function at the same `(x, z)` return identical
results — the height is a pure function of its inputs and that state. -/
theorem C8_height_deterministic (w₁ w₂ : World ℚ) (hn : w₁.noise = w₂.noise)
    (hp : w₁.params = w₂.params) (ht : w₁.timeOffset = w₂.timeOffset) (x z : ℚ) :
    heightAt w₁ x z = heightAt w₂ x z := by
  simp [heightAt, getTerrainHeight, hn, hp, ht]

/-- Witness for C8 at the concrete default world and `(x, z) = (1, 2)`. -/
theorem C8_height_deterministic_witness : heightAt worldW 1 2 = heightAt worldW 1 2 :=
  C8_height_deterministic worldW worldW rfl rfl rfl 1 2

/-! ### Claims about the motion tick -/

/-- Any number of ticks with motion disabled leaves the offset unchanged. -/
theorem ticks_not_moving (speed elapsed : ℚ) :
    ∀ (n : ℕ) (offset : ℚ), ticks false speed elapsed n offset = offset
  | 0, _ => rfl
  | n + 1, offset => by
    rw [ticks, tick]
    simpa using ticks_not_moving speed elapsed n offset

/-- Counterexample to C7 as stated: two ticks with `speed = 1.0` and
`elapsedSeconds = 2.0` from `isMoving = true` advance the offset to 4, which
is not the offset 2 produced by a single tick with `elapsedSeconds = 2.0`. -/
theorem C7_scenario_counterexample :
    ticks true (1 : ℚ) 2 2 0 = 4 ∧ tick true (1 : ℚ) 2 0 = 2 ∧
      ticks true (1 : ℚ) 2 2 0 ≠ tick true (1 : ℚ) 2 0 := by
  refine ⟨?_, ?_, ?_⟩ <;> norm_num [ticks, tick]

/-- C7 amended: a tick with motion enabled advances the offset by exactly
`speed · elapsed`; with motion disabled the offset is unchanged after any
number of ticks; enabled ticks compose additively, so two ticks of
`elapsedSeconds = 1.0` at `speed = 1.0` (total 2.0 s) equal one tick of
`elapsedSeconds = 2.0`. -/
theorem C7_tick_advances_additively (speed e₁ e₂ offset : ℚ) (n : ℕ) :
    tick true speed e₁ offset = offset + speed * e₁ ∧
    ticks false speed e₁ n offset = offset ∧
    tick true speed e₂ (tick true speed e₁ offset) = tick true speed (e₁ + e₂) offset ∧
    ticks true (1 : ℚ) 1 2 offset = tick true (1 : ℚ) 2 offset := by
  refine ⟨rfl, ticks_not_moving speed e₁ n offset, ?_, ?_⟩
  · simp only [tick, if_true]
    ring
  · show tick true (1 : ℚ) 1 (tick true 1 1 offset) = tick true (1 : ℚ) 2 offset
    simp only [tick, if_true]
    ring

/-! ### Claims about the rigid-body placement heights -/

/-- C2: the placement samples the height function at exactly five points —
the four footprint corners, each inflated outward by the bevel-size edge
margin, plus the center — takes the maximum of the five sampled heights, and
subtracts the bottom offset from that maximum to obtain the board's resting
height; with heights `[1.0, 1.2, 0.9, 1.1]` at the corners, `1.0` at the
center and `bottomOffset = -0.05` the resting height is `1.25`. -/
theorem C2_five_point_max_resting (hf : ℚ → ℚ → ℚ) (sp : SnowboardParams ℚ)
    (bc : Vec3 ℚ) :
    (sampleOffsets sp).length = 5 ∧
    sampleHeights hf sp bc =
      [hf (bc.x + (sp.width / 2 + sp.bevelSize)) (bc.z - (sp.length / 2 + sp.bevelSize)),
       hf (bc.x - (sp.width / 2 + sp.bevelSize)) (bc.z - (sp.length / 2 + sp.bevelSize)),
       hf (bc.x + (sp.width / 2 + sp.bevelSize)) (bc.z + (sp.length / 2 + sp.bevelSize)),
       hf (bc.x - (sp.width / 2 + sp.bevelSize)) (bc.z + (sp.length / 2 + sp.bevelSize)),
       hf bc.x bc.z] ∧
    (∀ h₀ h₁ h₂ h₃ h₄ : ℚ, sampleHeights hf sp bc = [h₀, h₁, h₂, h₃, h₄] →
      restingHeight hf sp bc = max h₀ (max h₁ (max h₂ (max h₃ h₄))) - bottomOffset sp) ∧
    (sampleHeights hf sp bc = [1, 6/5, 9/10, 11/10, 1] → bottomOffset sp = -(1/20) →
      restingHeight hf sp bc = 5/4) := by
  refine ⟨rfl, ?_, ?_, ?_⟩
  · simp only [sampleHeights, sampleOffsets, forwardDir, rightDir, Vec3.rotYPi,
      Vec3.add, Vec3.smul, List.map_cons, List.map_nil, List.cons.injEq, and_true]
    refine ⟨?_, ?_, ?_, ?_, ?_⟩ <;> ring_nf
  · intro h₀ h₁ h₂ h₃ h₄ hEq
    unfold restingHeight
    rw [hEq]
    simp [listMax]
  · intro hEq hBot
    unfold restingHeight
    rw [hEq, hBot]
    norm_num [listMax, max_def]

/-- Witness for C2 at a concrete height function realizing corner heights
`[1.0, 1.2, 0.9, 1.1]`, center height `1.0`, and a snowboard configuration
with `bottomOffset = -0.05`. -/
theorem C2_five_point_max_resting_witness : restingHeight hfW spW ⟨0, 0, 0⟩ = 5/4 := by
  refine (C2_five_point_max_resting hfW spW ⟨0, 0, 0⟩).2.2.2 ?_ ?_
  · norm_num [sampleHeights, sampleOffsets, forwardDir, rightDir, Vec3.rotYPi,
      Vec3.add, Vec3.smul, bottomOffset, spW, hfW]
  · norm_num [bottomOffset, spW]

/-- Counterexample to C4 as stated: over flat terrain at height 0, with the
code's default snowboard parameters and the default ride-height offset 0.5,
the board's y-coordinate is `0 - bottomOffset = 0.035` and differs from the
claimed `maximum - bottomOffset + verticalOffset = 0.535`: no vertical
ride-height offset is added to the board. -/
theorem C4_counterexample :
    (boardPosition hfFlat spD ⟨0, 0, 0⟩).y = 7/200 ∧
    paramsW.snowboarderHeight = 1/2 ∧
    (boardPosition hfFlat spD ⟨0, 0, 0⟩).y ≠
      (listMax (sampleHeights hfFlat spD (boardCenter spD ⟨0, 0, 0⟩))).getD 0
        - bottomOffset spD + paramsW.snowboarderHeight := by
  refine ⟨?_, rfl, ?_⟩ <;>
    norm_num [boardPosition, boardCenter, restingHeight, sampleHeights, sampleOffsets,
      forwardDir, rightDir, Vec3.rotYPi, Vec3.add, Vec3.smul, bottomOffset, spD,
      paramsW, hfFlat, listMax]

/-- Replacing only the ride-height setting `snowboarderHeight` of the
`params` object. -/
def setSnowboarderHeight (w : World ℚ) (h : ℚ) : World ℚ :=
  { w with params := { w.params with snowboarderHeight := h } }

/-- C4 amended: the board's y-coordinate is exactly the maximum sampled
height minus the bottom offset and is independent of the configurable
vertical ride-height offset (`params.snowboarderHeight`), which is only
added to the viewpoint anchor's height
`heightFn(anchor.x, anchor.z) + snowboarderHeight`. -/
theorem C4_board_ignores_vertical_offset (w : World ℚ) (h : ℚ)
    (sp : SnowboardParams ℚ) (snowPos : Vec3 ℚ) (ax az : ℚ) :
    boardPosition (heightAt (setSnowboarderHeight w h)) sp snowPos =
      boardPosition (heightAt w) sp snowPos ∧
    (boardPosition (heightAt w) sp snowPos).y =
      (listMax (sampleHeights (heightAt w) sp (boardCenter sp snowPos))).getD 0
        - bottomOffset sp ∧
    anchorHeight (setSnowboarderHeight w h) ax az = heightAt w ax az + h := by
  have hfun : heightAt (setSnowboarderHeight w h) = heightAt w := by
    funext x z
    simp [heightAt, getTerrainHeight, setSnowboarderHeight]
  refine ⟨by rw [hfun], rfl, ?_⟩
  rw [anchorHeight, hfun]
  simp [setSnowboarderHeight]

/-! ### Claims about the surface sampler -/

/-- The grid always holds exactly `(Ru+1)·(Rv+1)` points, whatever the
resolution values. -/
theorem buildSurface_length {α : Type} [Field α] (w : World α) (Ru Rv : ℕ) :
    (buildSurface w Ru Rv).length = (Ru + 1) * (Rv + 1) := by
  rw [buildSurface, List.length_flatMap]
  simp only [Function.comp_def, List.length_map, List.length_range]
  rw [List.map_const', List.sum_replicate, smul_eq_mul, List.length_range]

/-- The first grid point is the sample at `u = 0, v = 0`. -/
theorem buildSurface_head {α : Type} [Field α] (w : World α) (Ru Rv : ℕ) :
    (buildSurface w Ru Rv).head? = some (surfaceFunction w 0 0) := by
  simp [buildSurface, List.range_succ_eq_map]

/-- C6: the sampler maps `(u, v)` to the world point
`((u-0.5)·terrainWidth, heightFn(x, z), (v-0.5)·terrainLength)`; for valid
resolutions the grid has exactly `(Ru+1)·(Rv+1)` points, and the point at
grid index `(0,0)` is the point for `u = 0, v = 0`, whose x-coordinate is
`-terrainWidth/2`. -/
theorem C6_surface_grid (w : World ℚ) (Ru Rv : ℕ) (_hRu : 1 ≤ Ru) (_hRv : 1 ≤ Rv) :
    (∀ u v : ℚ, surfaceFunction w u v =
      ⟨(u - 1/2) * w.params.terrainWidth,
       heightAt w ((u - 1/2) * w.params.terrainWidth) ((v - 1/2) * w.params.terrainLength),
       (v - 1/2) * w.params.terrainLength⟩) ∧
    (buildSurface w Ru Rv).length = (Ru + 1) * (Rv + 1) ∧
    (buildSurface w Ru Rv).head? = some (surfaceFunction w 0 0) ∧
    (surfaceFunction w 0 0).x = -(w.params.terrainWidth / 2) := by
  refine ⟨fun u v => rfl, buildSurface_length w Ru Rv, buildSurface_head w Ru Rv, ?_⟩
  show (0 - 1/2 : ℚ) * w.params.terrainWidth = -(w.params.terrainWidth / 2)
  ring

/-- Witness for C6 at the default world and resolutions `(1, 1)`. -/
theorem C6_surface_grid_witness :
    (buildSurface worldW 1 1).length = (1 + 1) * (1 + 1) :=
  (C6_surface_grid worldW 1 1 le_rfl le_rfl).2.1

/-- A world whose `resolution` parameter is 0, i.e. below 1. -/
def worldRes0 : World ℚ := ⟨noiseW, { paramsW with resolution := 0 }, 0⟩

/-- Counterexample to C9 as stated: with `resolution = 0` the spec-modelled
rebuild rejects (`none`), but the code's `updateGeometry` proceeds and builds
a (degenerate) one-point grid — nothing rejects, clamps, or surfaces the
invalid configuration. -/
theorem C9_counterexample :
    worldRes0.params.resolution < 1 ∧
    specRebuildSurface worldRes0 = none ∧
    (updateGeometryGrid worldRes0).length = 1 := by
  refine ⟨by norm_num [worldRes0], ?_, ?_⟩
  · simp [specRebuildSurface, worldRes0]
  · simp [updateGeometryGrid, worldRes0, buildSurface_length]

/-- C9 amended: `updateGeometry` performs no validation of the resolution:
for every resolution value, including values below 1, it proceeds to build
the full `(resolution+1)·(resolution+1)` grid, while the spec-modelled
rebuild would reject any resolution below 1 synchronously. -/
theorem C9_no_resolution_validation (w : World ℚ) :
    (updateGeometryGrid w).length =
      (w.params.resolution + 1) * (w.params.resolution + 1) ∧
    (w.params.resolution < 1 → specRebuildSurface w = none) := by
  refine ⟨buildSurface_length w _ _, fun h => ?_⟩
  rw [specRebuildSurface, if_pos h]

/-- Witness for C9's amended statement at the zero-resolution world. -/
theorem C9_no_resolution_validation_witness :
    (updateGeometryGrid worldRes0).length = (0 + 1) * (0 + 1) ∧
    specRebuildSurface worldRes0 = none :=
  ⟨(C9_no_resolution_validation worldRes0).1,
   (C9_no_resolution_validation worldRes0).2 (by norm_num [worldRes0])⟩

/-! ### Claims about the orientation derivation -/

/-- The length of the right tangent probe vector is positive: its x-component
is the fixed `epsilon = 0.1`. -/
theorem rlen_right_pos (d : ℝ) : 0 < rlen ⟨epsilon, d, 0⟩ := by
  rw [rlen]
  apply Real.sqrt_pos.mpr
  have he : (0 : ℝ) < epsilon := by norm_num [epsilon]
  nlinarith [sq_nonneg d, mul_pos he he]

/-- The length of the forward tangent probe vector is positive: its
z-component is the fixed `epsilon = 0.1`. -/
theorem rlen_forward_pos (d : ℝ) : 0 < rlen ⟨0, d, epsilon⟩ := by
  rw [rlen]
  apply Real.sqrt_pos.mpr
  have he : (0 : ℝ) < epsilon := by norm_num [epsilon]
  nlinarith [sq_nonneg d, mul_pos he he]

/-- On a vector of positive length, THREE's normalize divides each component
by the length. -/
theorem threeNormalize_of_len_pos {v : Vec3 ℝ} (h : 0 < rlen v) :
    threeNormalize v = ⟨v.x / rlen v, v.y / rlen v, v.z / rlen v⟩ := by
  rw [threeNormalize, if_neg (ne_of_gt h)]

/-- The y-component of `rightSlope.cross(forwardSlope)` is the negated
product of the two positive quantities `epsilon / length`. -/
theorem slopeCross_y_eq (hf : ℝ → ℝ → ℝ) (cx cz : ℝ) :
    (slopeCross hf cx cz).y =
      -((epsilon / rlen ⟨epsilon, hf (cx + epsilon) cz - hf cx cz, 0⟩) *
        (epsilon / rlen ⟨0, hf cx (cz + epsilon) - hf cx cz, epsilon⟩)) := by
  rw [slopeCross, rightSlope, forwardSlope,
    threeNormalize_of_len_pos (rlen_right_pos _),
    threeNormalize_of_len_pos (rlen_forward_pos _)]
  show (Vec3.cross _ _).y = _
  rw [Vec3.cross]
  ring

/-- The y-component of the unnormalized cross product is strictly negative,
for every height function and every probe center. -/
theorem slopeCross_y_neg (hf : ℝ → ℝ → ℝ) (cx cz : ℝ) :
    (slopeCross hf cx cz).y < 0 := by
  rw [slopeCross_y_eq]
  have he : (0 : ℝ) < epsilon := by norm_num [epsilon]
  have h1 := div_pos he (rlen_right_pos (hf (cx + epsilon) cz - hf cx cz))
  have h2 := div_pos he (rlen_forward_pos (hf cx (cz + epsilon) - hf cx cz))
  exact neg_lt_zero.mpr (mul_pos h1 h2)

/-- A vector with negative y-component has positive length. -/
theorem rlen_pos_of_y_neg {v : Vec3 ℝ} (h : v.y < 0) : 0 < rlen v := by
  rw [rlen]
  apply Real.sqrt_pos.mpr
  nlinarith [sq_nonneg v.x, sq_nonneg v.z, mul_pos (neg_pos.mpr h) (neg_pos.mpr h)]

/-- The y-component of the final normalized normal is strictly negative. -/
theorem computedNormal_y_neg (hf : ℝ → ℝ → ℝ) (cx cz : ℝ) :
    (computedNormal hf cx cz).y < 0 := by
  have hy := slopeCross_y_neg hf cx cz
  have hl := rlen_pos_of_y_neg hy
  rw [computedNormal, threeNormalize_of_len_pos hl]
  exact div_neg_of_neg_of_pos hy hl

/-- C10: for every terrain configuration (noise generator, parameters,
scroll offset) and every probe center, the cross product of the normalized
right-slope and forward-slope vectors has a strictly negative y-component,
so its magnitude is nonzero (the degenerate zero-vector normalization is
unreachable) and the computed normal points into the negative-y half-space,
never equalling the up vector `(0, 1, 0)`. -/
theorem C10_normal_points_down (noise : ℝ → ℝ → ℝ) (p : Params ℝ)
    (timeOffset cx cz : ℝ) :
    (slopeCross (getTerrainHeight noise p timeOffset) cx cz).y < 0 ∧
    rlen (slopeCross (getTerrainHeight noise p timeOffset) cx cz) ≠ 0 ∧
    (computedNormal (getTerrainHeight noise p timeOffset) cx cz).y < 0 ∧
    computedNormal (getTerrainHeight noise p timeOffset) cx cz ≠ ⟨0, 1, 0⟩ := by
  refine ⟨slopeCross_y_neg _ cx cz,
    ne_of_gt (rlen_pos_of_y_neg (slopeCross_y_neg _ cx cz)),
    computedNormal_y_neg _ cx cz, fun hEq => ?_⟩
  have hy := computedNormal_y_neg (getTerrainHeight noise p timeOffset) cx cz
  rw [hEq] at hy
  norm_num at hy

/-- Over flat terrain (both finite-difference probe heights equal to the
center height) the two tangents are the horizontal unit vectors and the
computed normal is `(0, -1, 0)`. -/
theorem computedNormal_flat (hf : ℝ → ℝ → ℝ) (cx cz : ℝ)
    (hforward : hf cx (cz + epsilon) = hf cx cz)
    (hright : hf (cx + epsilon) cz = hf cx cz) :
    forwardSlope hf cx cz = ⟨0, 0, 1⟩ ∧
    rightSlope hf cx cz = ⟨1, 0, 0⟩ ∧
    computedNormal hf cx cz = ⟨0, -1, 0⟩ := by
  have he : (0 : ℝ) < epsilon := by norm_num [epsilon]
  have hdf : hf cx (cz + epsilon) - hf cx cz = 0 := sub_eq_zero.mpr hforward
  have hdr : hf (cx + epsilon) cz - hf cx cz = 0 := sub_eq_zero.mpr hright
  have hlf : rlen ⟨0, (0 : ℝ), epsilon⟩ = epsilon := by
    rw [rlen, show (0 : ℝ) ^ 2 + 0 ^ 2 + epsilon ^ 2 = epsilon ^ 2 by ring]
    exact Real.sqrt_sq he.le
  have hlr : rlen ⟨epsilon, (0 : ℝ), 0⟩ = epsilon := by
    rw [rlen, show epsilon ^ 2 + (0 : ℝ) ^ 2 + 0 ^ 2 = epsilon ^ 2 by ring]
    exact Real.sqrt_sq he.le
  have hF : forwardSlope hf cx cz = ⟨0, 0, 1⟩ := by
    rw [forwardSlope, hdf, threeNormalize_of_len_pos (by rw [hlf]; exact he), hlf]
    simp [div_self (ne_of_gt he)]
  have hR : rightSlope hf cx cz = ⟨1, 0, 0⟩ := by
    rw [rightSlope, hdr, threeNormalize_of_len_pos (by rw [hlr]; exact he), hlr]
    simp [div_self (ne_of_gt he)]
  have hc : Vec3.cross (⟨1, 0, 0⟩ : Vec3 ℝ) ⟨0, 0, 1⟩ = ⟨0, -1, 0⟩ := by
    rw [Vec3.cross]
    norm_num
  have hl1 : rlen ⟨0, (-1 : ℝ), 0⟩ = 1 := by
    rw [rlen, show (0 : ℝ) ^ 2 + (-1) ^ 2 + 0 ^ 2 = 1 by ring]
    exact Real.sqrt_one
  refine ⟨hF, hR, ?_⟩
  rw [computedNormal, slopeCross, hF, hR, hc,
    threeNormalize_of_len_pos (by rw [hl1]; norm_num), hl1]
  norm_num

/-- Counterexample to C3 as stated: over everywhere-flat terrain at height
0 the computed normal is `(0, -1, 0)`, which is not the default up vector
`(0, 1, 0)`. -/
theorem C3_counterexample :
    computedNormal (fun _ _ => (0 : ℝ)) 0 0 = ⟨0, -1, 0⟩ ∧
    computedNormal (fun _ _ => (0 : ℝ)) 0 0 ≠ ⟨0, 1, 0⟩ := by
  obtain ⟨-, -, hN⟩ := computedNormal_flat (fun _ _ => (0 : ℝ)) 0 0 rfl rfl
  refine ⟨hN, ?_⟩
  rw [hN]
  intro h
  rw [Vec3.mk.injEq] at h
  norm_num at h

/-- C3 amended: over a flat footprint (both finite-difference probe heights
equal to the sampled center height) the computed normal is `(0, -1, 0)` —
the negation of the default up vector, not the up vector itself — and the
forward-slope direction is the horizontal `(0, 0, 1)` with zero y-component,
contributing no tilt. -/
theorem C3_flat_normal_is_negated_up (hf : ℝ → ℝ → ℝ) (cx cz : ℝ)
    (hforward : hf cx (cz + epsilon) = hf cx cz)
    (hright : hf (cx + epsilon) cz = hf cx cz) :
    computedNormal hf cx cz = ⟨0, -1, 0⟩ ∧
    forwardSlope hf cx cz = ⟨0, 0, 1⟩ ∧ (forwardSlope hf cx cz).y = 0 ∧
    computedNormal hf cx cz ≠ ⟨0, 1, 0⟩ := by
  obtain ⟨hF, -, hN⟩ := computedNormal_flat hf cx cz hforward hright
  refine ⟨hN, hF, by rw [hF], ?_⟩
  rw [hN]
  intro h
  rw [Vec3.mk.injEq] at h
  norm_num at h

/-- Witness for C3's amended statement: flat terrain of height 5 probed at
center `(1, 2)`. -/
theorem C3_flat_normal_is_negated_up_witness :
    computedNormal (fun _ _ => (5 : ℝ)) 1 2 = ⟨0, -1, 0⟩ :=
  (C3_flat_normal_is_negated_up (fun _ _ => (5 : ℝ)) 1 2 rfl rfl).1

/-- Counterexample to C5 as stated: at the zero vector — the only vector
THREE's `normalize` treats specially — the implementation returns the zero
vector unchanged (division by `length || 1 = 1`), not the default up vector
the spec-modelled safe normalization substitutes; no near-zero check exists. -/
theorem C5_counterexample :
    threeNormalize ⟨0, 0, 0⟩ = (⟨0, 0, 0⟩ : Vec3 ℝ) ∧
    specSafeNormalize 0 ⟨0, 0, 0⟩ = (⟨0, 1, 0⟩ : Vec3 ℝ) ∧
    threeNormalize (⟨0, 0, 0⟩ : Vec3 ℝ) ≠ specSafeNormalize 0 ⟨0, 0, 0⟩ := by
  have hz : rlen (⟨0, 0, 0⟩ : Vec3 ℝ) = 0 := by
    rw [rlen]
    norm_num
  refine ⟨by rw [threeNormalize, if_pos hz],
    by rw [specSafeNormalize, if_pos (le_of_eq hz)], ?_⟩
  rw [threeNormalize, if_pos hz, specSafeNormalize, if_pos (le_of_eq hz)]
  intro h
  rw [Vec3.mk.injEq] at h
  norm_num at h

/-- C5 amended: the implementation performs no near-zero-magnitude check
before normalizing: `normalize` divides by the magnitude whenever it is
nonzero and returns the vector unchanged when the magnitude is exactly zero,
never substituting a default up vector; the degenerate case is unreachable
anyway, since the cross product of the two normalized tangents always has
nonzero magnitude. -/
theorem C5_no_near_zero_fallback (v : Vec3 ℝ) :
    (rlen v = 0 → threeNormalize v = v) ∧
    (rlen v ≠ 0 → threeNormalize v = ⟨v.x / rlen v, v.y / rlen v, v.z / rlen v⟩) ∧
    (∀ (hf : ℝ → ℝ → ℝ) (cx cz : ℝ), rlen (slopeCross hf cx cz) ≠ 0) :=
  ⟨fun h => by rw [threeNormalize, if_pos h],
   fun h => by rw [threeNormalize, if_neg h],
   fun hf cx cz => ne_of_gt (rlen_pos_of_y_neg (slopeCross_y_neg hf cx cz))⟩

/-- Witness for C5's amended statement at the vectors `(0,0,2)` (nonzero
length 2) and `(0,0,0)` (zero length). -/
theorem C5_no_near_zero_fallback_witness :
    threeNormalize (⟨0, 0, 2⟩ : Vec3 ℝ) = ⟨0, 0, 1⟩ ∧
    threeNormalize (⟨0, 0, 0⟩ : Vec3 ℝ) = ⟨0, 0, 0⟩ := by
  have h2 : rlen (⟨0, 0, 2⟩ : Vec3 ℝ) = 2 := by
    rw [rlen, show (0 : ℝ) ^ 2 + 0 ^ 2 + 2 ^ 2 = 2 ^ 2 by ring]
    exact Real.sqrt_sq (by norm_num)
  have hz : rlen (⟨0, 0, 0⟩ : Vec3 ℝ) = 0 := by
    rw [rlen]
    norm_num
  constructor
  · rw [(C5_no_near_zero_fallback ⟨0, 0, 2⟩).2.1 (by rw [h2]; norm_num), h2]
    rw [Vec3.mk.injEq]
    norm_num
  · exact (C5_no_near_zero_fallback ⟨0, 0, 0⟩).1 hz

end Terrain
